import Mathlib

/-!
# go_pickem: authentication and user handlers

A shallow embedding of `AuthHandler.go`, `UserHandler.go` and `middleware.go`.

* Go `interface{}` values (decoded JSON, BSON documents, token claims) are the
  inductive type `Val`; the nil interface is `Val.null`.
* A Go `map[string]interface{}` / `bson.M` is an association list `Doc`; a map
  variable that may be the nil map is an `Option Doc`.
* The MongoDB database handle is the explicit state `Store`: the two
  collections the handlers touch.
* Everything a handler obtains from outside the process (clock, signing,
  bcrypt, random source, server-assigned ids, transport failures of the
  store) is a field of `Env`.
* A handler returns an `Outcome`: the response it wrote together with the
  store it leaves behind, or the Go run-time panic it raised.
-/

namespace Pickem

/-! ## Dynamic values -/

/-- Dynamic value held in a Go `interface{}`: decoded JSON and BSON data. -/
inductive Val where
  | null
  | bool (b : Bool)
  | num (n : Int)
  | str (s : String)
  | bytes (b : List Nat)
  | oid (id : String)
  | arr (xs : List Val)
  | obj (kvs : List (String × Val))

mutual
/-- Structural equality test on values. -/
def Val.beq : Val → Val → Bool
  | .null, .null => true
  | .bool a, .bool b => a == b
  | .num a, .num b => a == b
  | .str a, .str b => a == b
  | .bytes a, .bytes b => a == b
  | .oid a, .oid b => a == b
  | .arr xs, .arr ys => Val.beqList xs ys
  | .obj xs, .obj ys => Val.beqKvs xs ys
  | _, _ => false
/-- Structural equality test on lists of values. -/
def Val.beqList : List Val → List Val → Bool
  | [], [] => true
  | x :: xs, y :: ys => Val.beq x y && Val.beqList xs ys
  | _, _ => false
/-- Structural equality test on key/value lists. -/
def Val.beqKvs : List (String × Val) → List (String × Val) → Bool
  | [], [] => true
  | (k, x) :: xs, (l, y) :: ys => k == l && Val.beq x y && Val.beqKvs xs ys
  | _, _ => false
end

instance : BEq Val := ⟨Val.beq⟩

/-- Go `map[string]interface{}` (also `bson.M`): an association list, the
first binding of a key being the live one. -/
abbrev Doc := List (String × Val)

/-- Map index `m[k]`: the bound value, or the nil interface when `k` is
absent. -/
def mapGet (m : Doc) (k : String) : Val :=
  match m.lookup k with
  | some v => v
  | none => .null

/-- Map index on a map variable that may be the nil map; reading a nil map
yields the nil interface. -/
def mapIdx (m : Option Doc) (k : String) : Val :=
  match m with
  | some d => mapGet d k
  | none => .null

/-- Builtin `delete(m, k)`. -/
def mapDelete (m : Doc) (k : String) : Doc :=
  m.filter (fun p => p.1 != k)

/-- Assignment `m[k] = v` on a non-nil map. -/
def mapSet (m : Doc) (k : String) (v : Val) : Doc :=
  mapDelete m k ++ [(k, v)]

/-- Assignment `m[k] = v` on a map variable: the Go run time panics when the
variable holds the nil map. -/
def mapAssign (m : Option Doc) (k : String) (v : Val) :
    Except String (Option Doc) :=
  match m with
  | none => .error "assignment to entry in nil map"
  | some d => .ok (some (mapSet d k v))

/-- Type assertion `v.(string)`. -/
def asString (v : Val) : Except String String :=
  match v with
  | .str s => .ok s
  | _ => .error "interface conversion: value is not string"

/-- Type assertion `v.([]byte)`. -/
def asBytes (v : Val) : Except String (List Nat) :=
  match v with
  | .bytes b => .ok b
  | _ => .error "interface conversion: value is not []uint8"

/-- Type assertion `v.(bson.ObjectId)`. -/
def asObjectId (v : Val) : Except String String :=
  match v with
  | .oid i => .ok i
  | _ => .error "interface conversion: value is not bson.ObjectId"

/-- Type assertion `v.(map[string]interface{})`. -/
def asMap (v : Val) : Except String Doc :=
  match v with
  | .obj m => .ok m
  | _ => .error "interface conversion: value is not a map"

/-- UTF-8 encoding of one code point. -/
def utf8Char (c : Char) : List Nat :=
  let n := c.toNat
  if n < 128 then [n]
  else if n < 2048 then [192 + n / 64, 128 + n % 64]
  else if n < 65536 then [224 + n / 4096, 128 + n / 64 % 64, 128 + n % 64]
  else [240 + n / 262144, 128 + n / 4096 % 64, 128 + n / 64 % 64, 128 + n % 64]

/-- UTF-8 encoding of a list of code points. -/
def utf8Chars : List Char → List Nat
  | [] => []
  | c :: cs => utf8Char c ++ utf8Chars cs

/-- Conversion `[]byte(s)`: the UTF-8 bytes of a string. -/
def stringBytes (s : String) : List Nat :=
  utf8Chars s.toList

/-! ## Environment, store, request, response -/

/-- The two MongoDB collections the handlers use. -/
structure Store where
  user : List Doc
  refreshtoken : List Doc

/-- Everything a handler obtains from outside the process. -/
structure Env where
  /-- Result of `time.Now().Unix()`. -/
  now : Int
  /-- Result of `os.Getenv("AUTH0_CLIENT_SECRET")`. -/
  secret : String
  /-- Method `SignedString` of an HS256 token with the given claims and key. -/
  signedString : Doc → String → Except String String
  /-- Function `bcrypt.CompareHashAndPassword`: `none` is a nil error. -/
  compareHashAndPassword : List Nat → List Nat → Option String
  /-- Function `rand.Read` on a buffer of the given size. -/
  randRead : Nat → Except String (List Nat)
  /-- Object id the server assigns to the next inserted document. -/
  newId : String
  /-- Transport failure of a `Find(..).One` on the named collection. -/
  findErr : String → Option String
  /-- Transport failure of an `Insert` on the named collection. -/
  insertErr : String → Option String
  /-- Transport failure of a `Find(..).Apply` on the named collection. -/
  applyErr : String → Option String
  /-- Verdict of the server on an update whose `$set` document is empty:
  some server versions reject it, others accept it as a no-op. -/
  emptySetErr : Option String

/-- An HTTP request as the handlers see it: method, decoded body, the
`{username}` path variable and the two request-context slots. -/
structure Request where
  /-- The HTTP method. -/
  method : String
  /-- The body as `json.Decoder.Decode` reads it; `none` when decoding
  fails (absent or malformed body). -/
  body : Option Val
  /-- The path variable `mux.Vars(req)["username"]`. -/
  username : String
  /-- The context slot `"jsonMap"`. -/
  ctxJson : Option Doc
  /-- The context slot `"user"`: the claims of the verified bearer token. -/
  ctxUser : Option Doc

/-- What a handler wrote: status line and, when `rend.JSON` ran, the JSON
value rendered. -/
structure Response where
  status : Nat
  body : Option Val

/-- Result of running a handler. -/
inductive Outcome where
  | responded (r : Response) (s : Store)
  | panicked (msg : String) (s : Store)

/-- The store a handler leaves behind. -/
def Outcome.store : Outcome → Store
  | .responded _ s => s
  | .panicked _ s => s

/-- The status the client receives: `negroni.NewRecovery` turns a panic into
a 500. -/
def Outcome.status : Outcome → Nat
  | .responded r _ => r.status
  | .panicked _ _ => 500

/-! ## The store operations (mgo) -/

/-- Equality match of a stored field against a query value: the field equals
the value, or is an array holding it. -/
def fieldMatches (field q : Val) : Bool :=
  field == q ||
    (match field with
     | .arr xs => xs.contains q
     | _ => false)

/-- A document satisfies a query document when each queried field matches. -/
def matchesQuery (q : Doc) (d : Doc) : Bool :=
  q.all (fun kv => fieldMatches (mapGet d kv.1) kv.2)

/-- Call `db.C(name).Find(q).One(&result)`. -/
def findOne (env : Env) (name : String) (docs : List Doc) (q : Doc) :
    Except String Doc :=
  match env.findErr name with
  | some e => .error e
  | none =>
    match docs.find? (matchesQuery q) with
    | some d => .ok d
    | none => .error "not found"

/-- Call `db.C(name).Insert(doc)`: the server supplies `_id` when the
document has none. -/
def insert (env : Env) (name : String) (docs : List Doc) (doc : Doc) :
    Except String (List Doc) :=
  match env.insertErr name with
  | some e => .error e
  | none =>
    match doc.lookup "_id" with
    | some _ => .ok (docs ++ [doc])
    | none => .ok (docs ++ [("_id", Val.oid env.newId) :: doc])

/-- Call `db.C(name).Find(q).Apply(change, ..)` with `Remove: true`: removes
the first matching document. -/
def applyRemove (env : Env) (name : String) (docs : List Doc) (q : Doc) :
    Except String (List Doc) :=
  match env.applyErr name with
  | some e => .error e
  | none =>
    match docs.find? (matchesQuery q) with
    | some _ => .ok (docs.eraseP (matchesQuery q))
    | none => .error "not found"

/-- Replace the first document satisfying `p`. -/
def replaceFirst (p : Doc → Bool) (d' : Doc) : List Doc → List Doc
  | [] => []
  | d :: ds => if p d then d' :: ds else d :: replaceFirst p d' ds

/-- Call `db.C("user").Find(q).Apply(change, ..)` with a `$set` update, on
the user collection, whose `username` field carries a unique index. A nil
map is marshalled as an empty document. -/
def applyUpdate (env : Env) (docs : List Doc) (q : Doc) (set : Option Doc) :
    Except String (List Doc) :=
  match env.applyErr "user" with
  | some e => .error e
  | none =>
    let fields : Doc :=
      match set with
      | some d => d
      | none => []
    match (if fields.isEmpty then env.emptySetErr else none) with
    | some e => .error e
    | none =>
      match docs.find? (matchesQuery q) with
      | none => .error "not found"
      | some d =>
        let d' := fields.foldl (fun acc kv => mapSet acc kv.1 kv.2) d
        let others := docs.eraseP (matchesQuery q)
        if others.any (fun o =>
            fieldMatches (mapGet o "username") (mapGet d' "username")) then
          .error "E11000 duplicate key error"
        else .ok (replaceFirst (matchesQuery q) d' docs)

/-! ## encoding/base64 -/

/-- The alphabet `encodeURL`. -/
def encodeURL : List Char :=
  "ABCDEFGHIJKLMNOPQRSTUVWXYZabcdefghijklmnopqrstuvwxyz0123456789-_".toList

/-- The character `enc.encode[v & 0x3F]`. -/
def encChar (v : Nat) : Char :=
  encodeURL.getD (v % 64) 'A'

/-- Method `Encode` of `base64.URLEncoding` (padding character `=`): three
bytes give four characters, a trailing group of one or two bytes is padded. -/
def encodeBytes : List Nat → List Char
  | b0 :: b1 :: b2 :: rest =>
    let val := b0 % 256 * 65536 + b1 % 256 * 256 + b2 % 256
    encChar (val / 262144) :: encChar (val / 4096) :: encChar (val / 64) ::
      encChar val :: encodeBytes rest
  | [b0, b1] =>
    let val := b0 % 256 * 65536 + b1 % 256 * 256
    [encChar (val / 262144), encChar (val / 4096), encChar (val / 64), '=']
  | [b0] =>
    let val := b0 % 256 * 65536
    [encChar (val / 262144), encChar (val / 4096), '=', '=']
  | [] => []

/-- Call `base64.URLEncoding.EncodeToString(src)`. -/
def EncodeToString (src : List Nat) : String :=
  String.mk (encodeBytes src)

/-! ## middleware.go -/

/-- Function `GetJson`: the `"jsonMap"` context slot, or the nil map. -/
def GetJson (req : Request) : Option Doc :=
  req.ctxJson

/-- Function `GetUser`: the `"user"` claim of the bearer token as a map, or
the nil map when the context holds no token. The type assertion panics when
the claim is not a JSON object. -/
def GetUser (req : Request) : Except String (Option Doc) :=
  match req.ctxUser with
  | some claims =>
    match asMap (mapGet claims "user") with
    | .ok m => .ok (some m)
    | .error e => .error e
  | none => .ok none

/-- Function `SetJson`: asserts that the decoded body is a JSON object and
stores it in the request context. -/
def SetJson (req : Request) (val : Val) : Except String Request :=
  match asMap val with
  | .ok inputMap => .ok { req with ctxJson := some inputMap }
  | .error e => .error e

/-- Function `JsonParserMiddleware`: for POST and PUT the body is decoded (a
decoding error is ignored and leaves the nil interface) and handed to
`SetJson`; then the next handler runs. -/
def JsonParserMiddleware (req : Request) (s : Store)
    (next : Store → Request → Outcome) : Outcome :=
  if req.method == "POST" || req.method == "PUT" then
    let jsonInput : Val :=
      match req.body with
      | some v => v
      | none => .null
    match SetJson req jsonInput with
    | .ok req' => next s req'
    | .error e => .panicked e s
  else next s req

/-! ## AuthHandler.go -/

/-- Function `createJwtToken`: claims `user` and `exp` (72 hours from now),
signed with the configured secret; returns the token text and the error. -/
def createJwtToken (env : Env) (user : Doc) : String × Option String :=
  let claims : Doc := mapSet (mapSet [] "user" (.obj user)) "exp"
    (.num (env.now + 72 * 3600))
  match env.signedString claims env.secret with
  | .ok jwtString => (jwtString, none)
  | .error jwtErr => ("", some jwtErr)

/-- Handler `LoginPostHandler`. -/
def LoginPostHandler (env : Env) (s : Store) (req : Request) : Outcome :=
  let inputMap := GetJson req
  match asString (mapIdx inputMap "username") with
  | .error p => .panicked p s
  | .ok username =>
  match findOne env "user" s.user [("username", .str username)] with
  | .error _ => .responded ⟨403, some (.obj [])⟩ s
  | .ok user =>
  match asString (mapIdx inputMap "password") with
  | .error p => .panicked p s
  | .ok inputPassword =>
  let inputPasswordSlice := stringBytes inputPassword
  match asBytes (mapGet user "password") with
  | .error p => .panicked p s
  | .ok hash =>
  let passwordCheck := env.compareHashAndPassword hash inputPasswordSlice
  let user := mapDelete user "password"
  match passwordCheck with
  | none =>
    match createJwtToken env user with
    | (_, some _) => .responded ⟨500, some (.obj [])⟩ s
    | (jwtString, none) =>
    let size := 64
    match env.randRead size with
    | .error _ => .responded ⟨500, some (.obj [])⟩ s
    | .ok rb =>
    let refreshToken := EncodeToString rb
    match insert env "refreshtoken" s.refreshtoken
        [("user", mapGet user "_id"), ("refreshToken", .str refreshToken)] with
    | .error _ => .responded ⟨500, some (.obj [])⟩ s
    | .ok tokens =>
      .responded
        ⟨200, some (.obj [("jwt", .str jwtString),
          ("refreshToken", .str refreshToken)])⟩
        { s with refreshtoken := tokens }
  | some _ => .responded ⟨403, some (.obj [])⟩ s

/-- Handler `LogoutPostHandler`. A handler that returns without writing
leaves the implicit status 200 and no body. -/
def LogoutPostHandler (env : Env) (s : Store) (req : Request) : Outcome :=
  let inputMap := GetJson req
  match asString (mapIdx inputMap "refreshToken") with
  | .error p => .panicked p s
  | .ok value =>
  match applyRemove env "refreshtoken" s.refreshtoken
      [("refreshToken", .str value)] with
  | .error err =>
    if err == "not found" then
      .responded
        ⟨500, some (.obj [("errorMessage",
            .str "Unable to find and remove refresh token"),
          ("errorStatus", .num 404)])⟩ s
    else
      .responded
        ⟨500, some (.obj [("errorMessage", .str "Unable to delete user"),
          ("errorStatus", .num 500)])⟩ s
  | .ok tokens => .responded ⟨200, none⟩ { s with refreshtoken := tokens }

/-- Handler `RefreshPostHandler`. -/
def RefreshPostHandler (env : Env) (s : Store) (req : Request) : Outcome :=
  let inputMap := GetJson req
  match asString (mapIdx inputMap "refreshToken") with
  | .error p => .panicked p s
  | .ok value =>
  match findOne env "refreshtoken" s.refreshtoken
      [("refreshToken", .str value)] with
  | .error _ => .responded ⟨404, some (.obj [])⟩ s
  | .ok refreshToken =>
  match asObjectId (mapGet refreshToken "user") with
  | .error p => .panicked p s
  | .ok userId =>
  match findOne env "user" s.user [("_id", .oid userId)] with
  | .error _ => .responded ⟨404, some (.obj [])⟩ s
  | .ok user =>
  match createJwtToken env user with
  | (_, some _) => .responded ⟨500, some (.obj [])⟩ s
  | (jwtString, none) =>
    .responded ⟨200, some (.obj [("jwt", .str jwtString)])⟩ s

/-! ## UserHandler.go -/

/-- Function `strings.Contains`. -/
def stringsContains (s sub : String) : Bool :=
  s.toList.tails.any (fun t => sub.toList.isPrefixOf t)

/-- Validator `valid.Optional(valid.String(valid.StrMin(min)))` of govalid:
a nil value passes, any other value has to be a string of at least `min`
characters; the result is the validation error, if any. -/
def validOptionalString (min : Nat) (v : Val) : Option String :=
  match v with
  | .null => none
  | .str x => if x.length < min then some "length too short" else none
  | _ => some "expected string"

/-- The schema of `UserPutHandler`: an object whose `username`, `firstName`
and `lastName` entries are optional non-empty strings. The result is the
failing path with its error, if any. -/
def validatePut (inputMap : Option Doc) : Option (String × String) :=
  match validOptionalString 1 (mapIdx inputMap "username") with
  | some err => some ("Object->Key[username].Value", err)
  | none =>
  match validOptionalString 1 (mapIdx inputMap "firstName") with
  | some err => some ("Object->Key[firstName].Value", err)
  | none =>
  match validOptionalString 1 (mapIdx inputMap "lastName") with
  | some err => some ("Object->Key[lastName].Value", err)
  | none => none

/-- The loop of `UserPutHandler` over `updatableKeys`: each key the body
supplies is asserted to be a string and assigned into `updateUser`. -/
def collectUpdates (inputMap : Option Doc) :
    List String → Option Doc → Except String (Option Doc)
  | [], updateUser => .ok updateUser
  | element :: rest, updateUser =>
    if mapIdx inputMap element != .null then
      match asString (mapIdx inputMap element) with
      | .error p => .error p
      | .ok v =>
        match mapAssign updateUser element (.str v) with
        | .error p => .error p
        | .ok updateUser' => collectUpdates inputMap rest updateUser'
    else collectUpdates inputMap rest updateUser

/-- Handler `UserPutHandler`. The variable `updateUser` is declared without
an initial value, so it starts as the nil map. -/
def UserPutHandler (env : Env) (s : Store) (req : Request) : Outcome :=
  let inputMap := GetJson req
  match GetUser req with
  | .error p => .panicked p s
  | .ok authUser =>
  let requestUsername := req.username
  if mapIdx authUser "username" != .str requestUsername then
    .responded
      ⟨403, some (.obj [("errorMessage",
          .str "Not allowed to update other users"),
        ("errorStatus", .num 403)])⟩ s
  else
  match validatePut inputMap with
  | some (path, err) =>
    .responded
      ⟨400, some (.obj [("errorMessage",
          .str ("Failed (" ++ err ++ "). Path: " ++ path)),
        ("errorStatus", .num 400)])⟩ s
  | none =>
  let updatableKeys := ["firstName", "lastName", "username"]
  match collectUpdates inputMap updatableKeys none with
  | .error p => .panicked p s
  | .ok updateUser =>
  match applyUpdate env s.user [("username", .str requestUsername)]
      updateUser with
  | .error err =>
    if stringsContains err "E11000" then
      .responded
        ⟨400, some (.obj [("errorMessage",
            .str "Username is already in use"),
          ("errorStatus", .num 400)])⟩ s
    else .responded ⟨500, none⟩ s
  | .ok users =>
    .responded ⟨200, some (.obj [("success", .bool true)])⟩
      { s with user := users }

/-- Handler `UserDeleteHandler`. -/
def UserDeleteHandler (env : Env) (s : Store) (req : Request) : Outcome :=
  match GetUser req with
  | .error p => .panicked p s
  | .ok authUser =>
  let requestUsername := req.username
  if mapIdx authUser "username" != .str requestUsername then
    .responded
      ⟨403, some (.obj [("errorMessage",
          .str "Not allowed to delete other users"),
        ("errorStatus", .num 403)])⟩ s
  else
  match applyRemove env "user" s.user
      [("username", .str requestUsername)] with
  | .error err =>
    if err == "not found" then
      .responded
        ⟨404, some (.obj [("errorMessage", .str "User was not found"),
          ("errorStatus", .num 404)])⟩ s
    else
      .responded
        ⟨500, some (.obj [("errorMessage", .str "Unable to delete user"),
          ("errorStatus", .num 500)])⟩ s
  | .ok users => .responded ⟨200, none⟩ { s with user := users }

/-! ## Sample data -/

/-- A sample environment in which every external call succeeds; the sample
signature lists the keys of the embedded profile. -/
def sampleEnv : Env where
  now := 1000
  secret := "s3cret"
  signedString := fun claims _ =>
    match mapGet claims "user" with
    | .obj u => .ok (String.intercalate "." (u.map Prod.fst))
    | _ => .ok ""
  compareHashAndPassword := fun hash pw =>
    if hash = pw then none else some "hashedPassword is not the hash"
  randRead := fun n => .ok (List.replicate n 0)
  newId := "t9"
  findErr := fun _ => none
  insertErr := fun _ => none
  applyErr := fun _ => none
  emptySetErr := some "$set is empty"

/-- A sample user record. -/
def alice : Doc :=
  [("_id", .oid "u1"), ("username", .str "alice"), ("firstName", .str "Al"),
    ("lastName", .str "Ice"), ("password", .bytes [112, 119])]

/-- A second sample user record. -/
def bob : Doc :=
  [("_id", .oid "u2"), ("username", .str "bob"), ("firstName", .str "Bo"),
    ("lastName", .str "B"), ("password", .bytes [113])]

/-- A sample refresh-token record owned by `alice`. -/
def aliceToken : Doc :=
  [("_id", .oid "t1"), ("user", .oid "u1"), ("refreshToken", .str "tok")]

/-- A second sample refresh-token record carrying the same value as
`aliceToken`. -/
def aliceToken2 : Doc :=
  [("_id", .oid "t2"), ("user", .oid "u1"), ("refreshToken", .str "tok")]

/-- The sample environment with a store whose find-and-modify calls fail. -/
def downEnv : Env :=
  { sampleEnv with applyErr := fun _ => some "EOF" }

/-- A request carrying the given method and decoded body, before any
middleware ran. -/
def rawRequest (method : String) (body : Option Val) : Request :=
  { method := method, body := body, username := "", ctxJson := none,
    ctxUser := none }

/-- A request whose context holds the given JSON object. -/
def jsonRequest (fields : Doc) : Request :=
  { method := "POST", body := some (.obj fields), username := "",
    ctxJson := some fields, ctxUser := none }

/-- A request on `/users/name` by the bearer of a token with the given
profile, with the given JSON object (if any) in the context. -/
def userRequest (method name : String) (profile : Doc) (fields : Option Doc) :
    Request :=
  { method := method, body := fields.map Val.obj, username := name,
    ctxJson := fields,
    ctxUser := some [("user", .obj profile), ("exp", .num 260200)] }

/-! ## Equality of dynamic values -/

mutual
theorem Val.beq_iff : ∀ a b : Val, Val.beq a b = true ↔ a = b
  | .null, b => by cases b <;> simp [Val.beq]
  | .bool a, b => by cases b <;> simp [Val.beq]
  | .num a, b => by cases b <;> simp [Val.beq]
  | .str a, b => by cases b <;> simp [Val.beq]
  | .bytes a, b => by cases b <;> simp [Val.beq]
  | .oid a, b => by cases b <;> simp [Val.beq]
  | .arr xs, b => by cases b <;> simp [Val.beq, Val.beqList_iff xs]
  | .obj xs, b => by cases b <;> simp [Val.beq, Val.beqKvs_iff xs]
theorem Val.beqList_iff : ∀ a b : List Val, Val.beqList a b = true ↔ a = b
  | [], b => by cases b <;> simp [Val.beqList]
  | x :: xs, b => by
    cases b <;> simp [Val.beqList, Val.beq_iff x, Val.beqList_iff xs]
theorem Val.beqKvs_iff :
    ∀ a b : List (String × Val), Val.beqKvs a b = true ↔ a = b
  | [], b => by cases b <;> simp [Val.beqKvs]
  | (k, x) :: xs, b => by
    cases b with
    | nil => simp [Val.beqKvs]
    | cons p ys =>
      obtain ⟨l, y⟩ := p
      simp [Val.beqKvs, Val.beq_iff x, Val.beqKvs_iff xs, and_assoc]
end

instance : DecidableEq Val := fun a b =>
  decidable_of_iff (Val.beq a b = true) (Val.beq_iff a b)

instance : LawfulBEq Val where
  eq_of_beq := fun h => (Val.beq_iff _ _).mp h
  rfl := (Val.beq_iff _ _).mpr rfl

deriving instance DecidableEq for Store, Response, Outcome

/-! ## Lemmas on the store operations -/

theorem find_none_of_forall {p : Doc → Bool} {l : List Doc}
    (h : ∀ d ∈ l, p d = false) : l.find? p = none := by
  rw [List.find?_eq_none]
  intro d hd
  simp [h d hd]

theorem find_some_of_unique {p : Doc → Bool} {l : List Doc} {u : Doc}
    (hmem : u ∈ l) (hp : p u = true) (huniq : ∀ d ∈ l, p d = true → d = u) :
    l.find? p = some u := by
  cases hf : l.find? p with
  | none =>
    rw [List.find?_eq_none] at hf
    exact absurd hp (hf u hmem)
  | some d =>
    have h1 := List.find?_some hf
    have h2 := List.mem_of_find?_eq_some hf
    rw [huniq d h2 h1]

theorem findOne_error_of_absent (env : Env) (name : String) {l : List Doc}
    {q : Doc} (h : l.find? (matchesQuery q) = none) :
    ∃ e, findOne env name l q = .error e := by
  unfold findOne
  cases env.findErr name with
  | some e => exact ⟨e, rfl⟩
  | none => exact ⟨"not found", by simp [h]⟩

theorem findOne_ok (env : Env) (name : String) {l : List Doc} {q u : Doc}
    (herr : env.findErr name = none)
    (h : l.find? (matchesQuery q) = some u) :
    findOne env name l q = .ok u := by
  simp [findOne, herr, h]

theorem lookup_filter_ne (m : Doc) {k k' : String} (h : k ≠ k') :
    List.lookup k (m.filter (fun p => p.1 != k')) = List.lookup k m := by
  induction m with
  | nil => rfl
  | cons p m ih =>
    obtain ⟨a, v⟩ := p
    by_cases hak : a = k'
    · have h1 : (a != k') = false := by simp [hak]
      have h2 : (k == a) = false := by simp [hak, h]
      simp [List.filter_cons, h1, List.lookup_cons, h2, ih]
    · have h1 : (a != k') = true := by simp [hak]
      simp [List.filter_cons, h1, List.lookup_cons, ih]

theorem mapGet_mapDelete_ne (m : Doc) {k k' : String} (h : k ≠ k') :
    mapGet (mapDelete m k') k = mapGet m k := by
  simp [mapGet, mapDelete, lookup_filter_ne m h]

theorem insert_token (env : Env) (docs : List Doc) (a b : Val)
    (h : env.insertErr "refreshtoken" = none) :
    insert env "refreshtoken" docs [("user", a), ("refreshToken", b)] =
      .ok (docs ++ [[("_id", .oid env.newId), ("user", a),
        ("refreshToken", b)]]) := by
  have hL : List.lookup "_id" [("user", a), ("refreshToken", b)] = none := rfl
  simp [insert, h, hL]

/-! ## Ownership check (C8) -/

/-- C8: when the profile of the bearer token (possibly the nil map, possibly
without a `username` or with a non-string one) does not carry the path
username, `UserPutHandler` and `UserDeleteHandler` answer 403 and leave the
store as it was, whatever the body and whatever the store would do. -/
theorem user_put_delete_forbidden (env : Env) (s : Store) (req : Request)
    (authUser : Option Doc) (hUser : GetUser req = .ok authUser)
    (hOther : mapIdx authUser "username" ≠ .str req.username) :
    UserPutHandler env s req =
        .responded
          ⟨403, some (.obj [("errorMessage",
              .str "Not allowed to update other users"),
            ("errorStatus", .num 403)])⟩ s ∧
      UserDeleteHandler env s req =
        .responded
          ⟨403, some (.obj [("errorMessage",
              .str "Not allowed to delete other users"),
            ("errorStatus", .num 403)])⟩ s := by
  constructor
  · simp [UserPutHandler, hUser, hOther]
  · simp [UserDeleteHandler, hUser, hOther]

/-- C8, instance: `bob` may not update or delete `alice`, even with a body
that would fail validation and a store that would fail. -/
theorem user_put_delete_forbidden_witness :
    UserPutHandler sampleEnv ⟨[alice, bob], []⟩
        (userRequest "PUT" "alice" (mapDelete bob "password")
          (some [("firstName", .num 3)])) =
        .responded
          ⟨403, some (.obj [("errorMessage",
              .str "Not allowed to update other users"),
            ("errorStatus", .num 403)])⟩ ⟨[alice, bob], []⟩ ∧
      UserDeleteHandler sampleEnv ⟨[alice, bob], []⟩
        (userRequest "PUT" "alice" (mapDelete bob "password")
          (some [("firstName", .num 3)])) =
        .responded
          ⟨403, some (.obj [("errorMessage",
              .str "Not allowed to delete other users"),
            ("errorStatus", .num 403)])⟩ ⟨[alice, bob], []⟩ :=
  user_put_delete_forbidden sampleEnv ⟨[alice, bob], []⟩
    (userRequest "PUT" "alice" (mapDelete bob "password")
      (some [("firstName", .num 3)]))
    (some (mapDelete bob "password")) rfl (by decide)

/-! ## Login (C4, C5) -/

/-- C4: a login whose username matches no user record and a login whose
username matches a record while the bcrypt comparison reports an error (a
mismatch or a malformed hash alike) get the same answer: status 403 with an
empty JSON object, no token, and the store as it was. -/
theorem login_failure_uniform (env : Env) (s : Store) (reqA reqB : Request)
    (nameA nameB pw : String) (u : Doc) (hash : List Nat) (e : String)
    (hNameA : mapIdx (GetJson reqA) "username" = .str nameA)
    (hAbsent : ∀ d ∈ s.user, matchesQuery [("username", .str nameA)] d = false)
    (hNameB : mapIdx (GetJson reqB) "username" = .str nameB)
    (hFind : findOne env "user" s.user [("username", .str nameB)] = .ok u)
    (hPw : mapIdx (GetJson reqB) "password" = .str pw)
    (hHash : mapGet u "password" = .bytes hash)
    (hCmp : env.compareHashAndPassword hash (stringBytes pw) = some e) :
    LoginPostHandler env s reqA = .responded ⟨403, some (.obj [])⟩ s ∧
      LoginPostHandler env s reqB = .responded ⟨403, some (.obj [])⟩ s ∧
      LoginPostHandler env s reqA = LoginPostHandler env s reqB := by
  have hA : LoginPostHandler env s reqA = .responded ⟨403, some (.obj [])⟩ s := by
    obtain ⟨e', he'⟩ := findOne_error_of_absent env "user"
      (find_none_of_forall hAbsent)
    simp [LoginPostHandler, hNameA, asString, he']
  have hB : LoginPostHandler env s reqB = .responded ⟨403, some (.obj [])⟩ s := by
    simp [LoginPostHandler, hNameB, asString, hFind, hPw, hHash, asBytes, hCmp]
  exact ⟨hA, hB, hA.trans hB.symm⟩

/-- C4, instance: an unknown user and `alice` with a wrong password. -/
theorem login_failure_uniform_witness :
    LoginPostHandler sampleEnv ⟨[alice, bob], []⟩
        (jsonRequest [("username", .str "carol"), ("password", .str "pw")]) =
        .responded ⟨403, some (.obj [])⟩ ⟨[alice, bob], []⟩ ∧
      LoginPostHandler sampleEnv ⟨[alice, bob], []⟩
        (jsonRequest [("username", .str "alice"), ("password", .str "no")]) =
        .responded ⟨403, some (.obj [])⟩ ⟨[alice, bob], []⟩ ∧
      LoginPostHandler sampleEnv ⟨[alice, bob], []⟩
        (jsonRequest [("username", .str "carol"), ("password", .str "pw")]) =
      LoginPostHandler sampleEnv ⟨[alice, bob], []⟩
        (jsonRequest [("username", .str "alice"), ("password", .str "no")]) :=
  login_failure_uniform sampleEnv ⟨[alice, bob], []⟩
    (jsonRequest [("username", .str "carol"), ("password", .str "pw")])
    (jsonRequest [("username", .str "alice"), ("password", .str "no")])
    "carol" "alice" "no" alice [112, 119] "hashedPassword is not the hash"
    rfl (by decide) rfl rfl rfl rfl rfl

/-- C5: a login with the username of the stored record `u` (the only record
with that username) and a password matching its hash, when the lookup, the
signing, the random source and the insert succeed, answers 200 with exactly
`jwt` and `refreshToken`, and appends exactly one refresh-token record,
holding the id of `u` and the returned refresh token; the user collection is
untouched. -/
theorem login_success (env : Env) (s : Store) (req : Request)
    (name pw jwt : String) (u : Doc) (hash rb : List Nat)
    (hName : mapIdx (GetJson req) "username" = .str name)
    (hPw : mapIdx (GetJson req) "password" = .str pw)
    (hMem : u ∈ s.user)
    (hUser : mapGet u "username" = .str name)
    (hUnique : ∀ d ∈ s.user,
      matchesQuery [("username", .str name)] d = true → d = u)
    (hFindOk : env.findErr "user" = none)
    (hHash : mapGet u "password" = .bytes hash)
    (hCmp : env.compareHashAndPassword hash (stringBytes pw) = none)
    (hSign : createJwtToken env (mapDelete u "password") = (jwt, none))
    (hRand : env.randRead 64 = .ok rb)
    (hInsert : env.insertErr "refreshtoken" = none) :
    LoginPostHandler env s req =
      .responded
        ⟨200, some (.obj [("jwt", .str jwt),
          ("refreshToken", .str (EncodeToString rb))])⟩
        { user := s.user,
          refreshtoken := s.refreshtoken ++
            [[("_id", .oid env.newId), ("user", mapGet u "_id"),
              ("refreshToken", .str (EncodeToString rb))]] } := by
  have hq : matchesQuery [("username", .str name)] u = true := by
    simp [matchesQuery, fieldMatches, hUser]
  have hFind := findOne_ok env "user" hFindOk
    (find_some_of_unique hMem hq hUnique)
  have hId : mapGet (mapDelete u "password") "_id" = mapGet u "_id" :=
    mapGet_mapDelete_ne u (by decide)
  simp [LoginPostHandler, hName, hPw, asString, hFind, hHash, asBytes, hCmp,
    hSign, hRand, insert_token env _ _ _ hInsert, hId]

/-- C5, instance: `alice` logs in with her password. -/
theorem login_success_witness :
    LoginPostHandler sampleEnv ⟨[alice, bob], [aliceToken]⟩
        (jsonRequest [("username", .str "alice"), ("password", .str "pw")]) =
      .responded
        ⟨200, some (.obj [("jwt", .str "_id.username.firstName.lastName"),
          ("refreshToken", .str (EncodeToString (List.replicate 64 0)))])⟩
        { user := [alice, bob],
          refreshtoken := [aliceToken] ++
            [[("_id", .oid sampleEnv.newId), ("user", mapGet alice "_id"),
              ("refreshToken",
                .str (EncodeToString (List.replicate 64 0)))]] } :=
  login_success sampleEnv ⟨[alice, bob], [aliceToken]⟩
    (jsonRequest [("username", .str "alice"), ("password", .str "pw")])
    "alice" "pw" "_id.username.firstName.lastName" alice [112, 119]
    (List.replicate 64 0) rfl rfl (by decide) rfl (by decide) rfl rfl rfl rfl
    rfl rfl

/-! ## The refresh token text (C6) -/

theorem encodeURL_length : encodeURL.length = 64 := by decide

theorem encChar_mem (v : Nat) : encChar v ∈ encodeURL := by
  unfold encChar
  have h : v % 64 < encodeURL.length := by
    rw [encodeURL_length]; exact Nat.mod_lt _ (by decide)
  rw [List.getD_eq_getElem _ _ h]
  exact List.getElem_mem h

theorem encodeBytes_append (a b : List Nat) (k : Nat)
    (h : a.length = 3 * k) :
    encodeBytes (a ++ b) = encodeBytes a ++ encodeBytes b := by
  induction k generalizing a with
  | zero =>
    have : a = [] := List.length_eq_zero.mp (by simpa using h)
    subst this
    simp [encodeBytes]
  | succ k ih =>
    match a, h with
    | b0 :: b1 :: b2 :: rest, h =>
      have hr : rest.length = 3 * k := by
        simp only [List.length_cons] at h; omega
      simp [encodeBytes, ih rest hr]

theorem encodeBytes_full_length (a : List Nat) (k : Nat)
    (h : a.length = 3 * k) : (encodeBytes a).length = 4 * k := by
  induction k generalizing a with
  | zero =>
    have : a = [] := List.length_eq_zero.mp (by simpa using h)
    subst this
    simp [encodeBytes]
  | succ k ih =>
    match a, h with
    | b0 :: b1 :: b2 :: rest, h =>
      have hr : rest.length = 3 * k := by
        simp only [List.length_cons] at h; omega
      simp [encodeBytes, ih rest hr]; omega

theorem encodeBytes_full_mem (a : List Nat) (k : Nat)
    (h : a.length = 3 * k) : ∀ c ∈ encodeBytes a, c ∈ encodeURL := by
  induction k generalizing a with
  | zero =>
    have : a = [] := List.length_eq_zero.mp (by simpa using h)
    subst this
    simp [encodeBytes]
  | succ k ih =>
    match a, h with
    | b0 :: b1 :: b2 :: rest, h =>
      have hr : rest.length = 3 * k := by
        simp only [List.length_cons] at h; omega
      intro c hc
      simp only [encodeBytes, List.mem_cons] at hc
      rcases hc with hc | hc | hc | hc | hc
      · rw [hc]; exact encChar_mem _
      · rw [hc]; exact encChar_mem _
      · rw [hc]; exact encChar_mem _
      · rw [hc]; exact encChar_mem _
      · exact ih rest hr c hc

/-- The text `encodeBytes` gives for 64 bytes: 84 characters for the first 63
bytes, two characters for the last byte, and the padding `==`. -/
theorem encodeBytes_64 (rb : List Nat) (h : rb.length = 64) :
    ∃ body : List Char, ∃ c1 c2 : Char,
      encodeBytes rb = body ++ [c1, c2, '=', '='] ∧ body.length = 84 ∧
      (∀ c ∈ body, c ∈ encodeURL) ∧ c1 ∈ encodeURL ∧ c2 ∈ encodeURL := by
  have hsplit : rb = rb.take 63 ++ rb.drop 63 := (List.take_append_drop 63 rb).symm
  have htake : (rb.take 63).length = 3 * 21 := by simp [h]
  have hdrop : (rb.drop 63).length = 1 := by simp [h]
  obtain ⟨x, hx⟩ := List.length_eq_one.mp hdrop
  refine ⟨encodeBytes (rb.take 63), encChar (x % 256 * 65536 / 262144),
    encChar (x % 256 * 65536 / 4096), ?_, ?_, ?_, encChar_mem _, encChar_mem _⟩
  · conv_lhs => rw [hsplit]
    rw [encodeBytes_append _ _ 21 htake, hx]
    simp [encodeBytes]
  · exact encodeBytes_full_length _ 21 htake
  · exact encodeBytes_full_mem _ 21 htake

theorem EncodeToString_64 (rb : List Nat) (h : rb.length = 64) :
    (EncodeToString rb).length = 88 ∧
      (∀ c ∈ (EncodeToString rb).toList.take 86, c ∈ encodeURL) ∧
      (EncodeToString rb).toList.drop 86 = ['=', '='] := by
  obtain ⟨body, c1, c2, henc, hlen, hbody, h1, h2⟩ := encodeBytes_64 rb h
  have hto : (EncodeToString rb).toList = body ++ [c1, c2, '=', '='] := by
    simp [EncodeToString, henc]
  refine ⟨?_, ?_, ?_⟩
  · simp [EncodeToString, henc, String.length, hlen]
  · rw [hto]
    intro c hc
    rw [List.take_append_eq_append_take] at hc
    simp [hlen] at hc
    rcases hc with hc | hc | hc
    · exact hbody c (List.mem_of_mem_take hc)
    · rw [hc]; exact h1
    · rw [hc]; exact h2
  · rw [hto, List.drop_append_eq_append_drop]
    simp [hlen]

/-- Every 200 answer of `LoginPostHandler` comes from the branch that drew
the random bytes, encoded them and inserted the record. -/
theorem login_ok_inv (env : Env) (s s' : Store) (req : Request)
    (r : Response) (hRun : LoginPostHandler env s req = .responded r s')
    (hOk : r.status = 200) :
    ∃ jwt rb userId,
      env.randRead 64 = .ok rb ∧
      r.body = some (.obj [("jwt", .str jwt),
        ("refreshToken", .str (EncodeToString rb))]) ∧
      s'.user = s.user ∧
      s'.refreshtoken = s.refreshtoken ++
        [[("_id", .oid env.newId), ("user", userId),
          ("refreshToken", .str (EncodeToString rb))]] := by
  unfold LoginPostHandler at hRun
  simp only at hRun
  split at hRun
  · simp at hRun
  split at hRun
  · simp at hRun; obtain ⟨h1, _⟩ := hRun; subst h1; simp at hOk
  split at hRun
  · simp at hRun
  split at hRun
  · simp at hRun
  split at hRun
  · split at hRun
    · simp at hRun; obtain ⟨h1, _⟩ := hRun; subst h1; simp at hOk
    split at hRun
    · simp at hRun; obtain ⟨h1, _⟩ := hRun; subst h1; simp at hOk
    cases hIns : env.insertErr "refreshtoken" with
    | some e =>
      simp [insert, hIns] at hRun
      obtain ⟨h1, _⟩ := hRun; subst h1; simp at hOk
    | none =>
      rw [insert_token env _ _ _ hIns] at hRun
      simp at hRun
      obtain ⟨h1, h2⟩ := hRun
      subst h1; subst h2
      refine ⟨_, _, _, ?_, rfl, rfl, rfl⟩
      assumption
  · simp at hRun; obtain ⟨h1, _⟩ := hRun; subst h1; simp at hOk

/-- C6 (amended): the refresh token a successful login returns and persists
is `base64.URLEncoding` of the 64 random bytes; that text is 88 characters
long: 86 characters of the URL-safe alphabet followed by the padding `==`. -/
theorem login_refresh_token_text (env : Env) (s s' : Store) (req : Request)
    (r : Response) (rb : List Nat)
    (hRand : env.randRead 64 = .ok rb) (hLen : rb.length = 64)
    (hRun : LoginPostHandler env s req = .responded r s')
    (hOk : r.status = 200) :
    ∃ jwt userId,
      r.body = some (.obj [("jwt", .str jwt),
        ("refreshToken", .str (EncodeToString rb))]) ∧
      s'.refreshtoken = s.refreshtoken ++
        [[("_id", .oid env.newId), ("user", userId),
          ("refreshToken", .str (EncodeToString rb))]] ∧
      (EncodeToString rb).length = 88 ∧
      (∀ c ∈ (EncodeToString rb).toList.take 86, c ∈ encodeURL) ∧
      (EncodeToString rb).toList.drop 86 = ['=', '='] := by
  obtain ⟨jwt, rb', userId, hrb, hbody, _, hstore⟩ :=
    login_ok_inv env s s' req r hRun hOk
  rw [hRand] at hrb
  have hEq : rb = rb' := by injection hrb
  subst hEq
  exact ⟨jwt, userId, hbody, hstore, EncodeToString_64 rb hLen⟩

/-- C6 (amended), instance: the login of `alice` with 64 zero bytes from the
random source. -/
theorem login_refresh_token_text_witness :
    ∃ jwt userId,
      (⟨200, some (.obj [("jwt", .str "_id.username.firstName.lastName"),
          ("refreshToken", .str (EncodeToString (List.replicate 64 0)))])⟩ :
        Response).body =
        some (.obj [("jwt", .str jwt),
          ("refreshToken", .str (EncodeToString (List.replicate 64 0)))]) ∧
      (⟨[alice], [[("_id", .oid "t9"), ("user", .oid "u1"),
          ("refreshToken", .str (EncodeToString (List.replicate 64 0)))]]⟩ :
        Store).refreshtoken =
        ([] : List Doc) ++
          [[("_id", .oid sampleEnv.newId), ("user", userId),
            ("refreshToken", .str (EncodeToString (List.replicate 64 0)))]] ∧
      (EncodeToString (List.replicate 64 0)).length = 88 ∧
      (∀ c ∈ (EncodeToString (List.replicate 64 0)).toList.take 86,
        c ∈ encodeURL) ∧
      (EncodeToString (List.replicate 64 0)).toList.drop 86 = ['=', '='] :=
  login_refresh_token_text sampleEnv ⟨[alice], []⟩
    ⟨[alice], [[("_id", .oid "t9"), ("user", .oid "u1"),
      ("refreshToken", .str (EncodeToString (List.replicate 64 0)))]]⟩
    (jsonRequest [("username", .str "alice"), ("password", .str "pw")])
    ⟨200, some (.obj [("jwt", .str "_id.username.firstName.lastName"),
      ("refreshToken", .str (EncodeToString (List.replicate 64 0)))])⟩
    (List.replicate 64 0) rfl (by decide) (by decide) rfl

/-- C6 as stated fails: with 64 zero bytes from the random source the login
of `alice` returns and persists a refresh token of 88 characters, not 86. -/
theorem login_refresh_token_not_86 :
    sampleEnv.randRead 64 = .ok (List.replicate 64 0) ∧
      (List.replicate 64 0).length = 64 ∧
      LoginPostHandler sampleEnv ⟨[alice], []⟩
          (jsonRequest [("username", .str "alice"), ("password", .str "pw")]) =
        .responded
          ⟨200, some (.obj [("jwt", .str "_id.username.firstName.lastName"),
            ("refreshToken", .str (EncodeToString (List.replicate 64 0)))])⟩
          ⟨[alice], [[("_id", .oid "t9"), ("user", .oid "u1"),
            ("refreshToken",
              .str (EncodeToString (List.replicate 64 0)))]]⟩ ∧
      (EncodeToString (List.replicate 64 0)).length = 88 ∧
      (EncodeToString (List.replicate 64 0)).length ≠ 86 := by
  refine ⟨rfl, by decide, by decide, by decide, by decide⟩

/-! ## Logout then refresh (C3) -/

theorem find_eraseP_none (p : Doc → Bool) (l : List Doc)
    (h : l.countP p ≤ 1) : (l.eraseP p).find? p = none := by
  induction l with
  | nil => rfl
  | cons a l ih =>
    by_cases hp : p a = true
    · have h0 : l.countP p = 0 := by
        rw [List.countP_cons_of_pos _ _ hp] at h; omega
      rw [List.eraseP_cons_of_pos hp]
      rw [List.countP_eq_zero] at h0
      exact find_none_of_forall (fun d hd => by simpa using h0 d hd)
    · have h1 : l.countP p ≤ 1 := by
        rw [List.countP_cons_of_neg _ _ hp] at h; exact h
      rw [List.eraseP_cons_of_neg hp, List.find?_cons_of_neg _ hp]
      exact ih h1

theorem findOne_transfer (env env2 : Env) (name : String) {l : List Doc}
    {q u : Doc} (h : findOne env name l q = .ok u)
    (h2 : env2.findErr name = none) : findOne env2 name l q = .ok u := by
  unfold findOne at h ⊢
  rw [h2]
  cases he : env.findErr name with
  | some e => simp [he] at h
  | none => simpa [he] using h

/-- C3 (amended): when at most one refresh-token record matches the value
`v` and a logout presenting `v` succeeds, a refresh presenting `v` against
the resulting store answers 404 with an empty object, hence no access token,
whatever the environment of the second request. -/
theorem refresh_after_logout (env env2 : Env) (s s' : Store) (req : Request)
    (v : String)
    (hVal : mapIdx (GetJson req) "refreshToken" = .str v)
    (hOne : s.refreshtoken.countP
      (matchesQuery [("refreshToken", .str v)]) ≤ 1)
    (hOut : LogoutPostHandler env s req = .responded ⟨200, none⟩ s') :
    RefreshPostHandler env2 s' req = .responded ⟨404, some (.obj [])⟩ s' := by
  have hs : s'.refreshtoken =
      s.refreshtoken.eraseP (matchesQuery [("refreshToken", .str v)]) := by
    simp only [LogoutPostHandler, hVal, asString, applyRemove] at hOut
    cases hA : env.applyErr "refreshtoken" with
    | some e =>
      simp only [hA] at hOut
      split at hOut <;> simp at hOut
    | none =>
      simp only [hA] at hOut
      cases hF : s.refreshtoken.find?
          (matchesQuery [("refreshToken", .str v)]) with
      | none => simp [hF] at hOut
      | some d =>
        simp [hF] at hOut
        rw [← hOut]
  have hNone : s'.refreshtoken.find?
      (matchesQuery [("refreshToken", .str v)]) = none := by
    rw [hs]; exact find_eraseP_none _ _ hOne
  obtain ⟨e, he⟩ := findOne_error_of_absent env2 "refreshtoken" hNone
  simp [RefreshPostHandler, hVal, asString, he]

/-- C3 (amended), instance: `alice` logs out with her only token. -/
theorem refresh_after_logout_witness :
    RefreshPostHandler sampleEnv ⟨[alice], []⟩
        (jsonRequest [("refreshToken", .str "tok")]) =
      .responded ⟨404, some (.obj [])⟩ ⟨[alice], []⟩ :=
  refresh_after_logout sampleEnv sampleEnv ⟨[alice], [aliceToken]⟩
    ⟨[alice], []⟩ (jsonRequest [("refreshToken", .str "tok")]) "tok" rfl
    (by decide) (by decide)

/-- C3 as stated fails: with two records carrying the value `tok`, the
logout succeeds and removes one of them, and the refresh presenting `tok`
against the resulting store answers 200 with an access token. -/
theorem refresh_after_logout_duplicate :
    LogoutPostHandler sampleEnv ⟨[alice], [aliceToken, aliceToken2]⟩
        (jsonRequest [("refreshToken", .str "tok")]) =
        .responded ⟨200, none⟩ ⟨[alice], [aliceToken2]⟩ ∧
      RefreshPostHandler sampleEnv ⟨[alice], [aliceToken2]⟩
        (jsonRequest [("refreshToken", .str "tok")]) =
        .responded
          ⟨200, some (.obj [("jwt",
            .str "_id.username.firstName.lastName.password")])⟩
          ⟨[alice], [aliceToken2]⟩ := by
  constructor <;> decide

/-! ## Refresh leaves the store alone (C7) -/

/-- C7: `RefreshPostHandler` leaves the store as it was on every path, a
panic included. When it answers 200, the answer carries a token issued for a
stored user; the same request against the resulting store gets the same
answer, and under any other environment whose lookups and signing succeed
it again gets 200 with a token issued for that same user. -/
theorem refresh_frame_repeat (env env2 : Env) (s : Store) (req : Request) :
    (RefreshPostHandler env s req).store = s ∧
      ∀ r s', RefreshPostHandler env s req = .responded r s' →
        r.status = 200 →
        s' = s ∧ RefreshPostHandler env s' req = .responded r s' ∧
        ∃ user jwt, createJwtToken env user = (jwt, none) ∧
          r.body = some (.obj [("jwt", .str jwt)]) ∧
          (env2.findErr "refreshtoken" = none → env2.findErr "user" = none →
            ∀ jwt2, createJwtToken env2 user = (jwt2, none) →
              RefreshPostHandler env2 s' req =
                .responded ⟨200, some (.obj [("jwt", .str jwt2)])⟩ s') := by
  constructor
  · unfold RefreshPostHandler
    simp only
    repeat' split
    all_goals rfl
  · intro r s' hRun hOk
    unfold RefreshPostHandler at hRun
    simp only at hRun
    split at hRun
    · simp at hRun
    rename_i value hValue
    split at hRun
    · simp at hRun; obtain ⟨h1, _⟩ := hRun; subst h1; simp at hOk
    rename_i tokenRec hTok
    split at hRun
    · simp at hRun
    rename_i userId hUid
    split at hRun
    · simp at hRun; obtain ⟨h1, _⟩ := hRun; subst h1; simp at hOk
    rename_i user hUsr
    split at hRun
    · simp at hRun; obtain ⟨h1, _⟩ := hRun; subst h1; simp at hOk
    rename_i jwtString hJwt
    simp at hRun
    obtain ⟨h1, h2⟩ := hRun
    subst h1; subst h2
    refine ⟨rfl, ?_, user, jwtString, hJwt, rfl, ?_⟩
    · simp [RefreshPostHandler, hValue, hTok, hUid, hUsr, hJwt]
    · intro hf1 hf2 jwt2 hJwt2
      simp [RefreshPostHandler, hValue, findOne_transfer env env2 _ hTok hf1,
        hUid, findOne_transfer env env2 _ hUsr hf2, hJwt2]

/-- C7, instance: redeeming the token of `alice` twice. -/
theorem refresh_frame_repeat_witness :
    (RefreshPostHandler sampleEnv ⟨[alice], [aliceToken]⟩
        (jsonRequest [("refreshToken", .str "tok")])).store =
        ⟨[alice], [aliceToken]⟩ ∧
      RefreshPostHandler sampleEnv ⟨[alice], [aliceToken]⟩
        (jsonRequest [("refreshToken", .str "tok")]) =
        .responded
          ⟨200, some (.obj [("jwt",
            .str "_id.username.firstName.lastName.password")])⟩
          ⟨[alice], [aliceToken]⟩ :=
  ⟨(refresh_frame_repeat sampleEnv sampleEnv ⟨[alice], [aliceToken]⟩
      (jsonRequest [("refreshToken", .str "tok")])).1,
    ((refresh_frame_repeat sampleEnv sampleEnv ⟨[alice], [aliceToken]⟩
      (jsonRequest [("refreshToken", .str "tok")])).2
      ⟨200, some (.obj [("jwt",
        .str "_id.username.firstName.lastName.password")])⟩
      ⟨[alice], [aliceToken]⟩ (by decide) rfl).2.1⟩

/-! ## Where the handlers depart from their contract -/

/-- C1: on the refresh path the stored user record goes into
`createJwtToken` as it is, so the access token carries the `password` entry;
on the login path the entry is deleted first. -/
theorem refresh_token_keeps_password :
    RefreshPostHandler sampleEnv ⟨[alice], [aliceToken]⟩
        (jsonRequest [("refreshToken", .str "tok")]) =
        .responded
          ⟨200, some (.obj [("jwt", .str (createJwtToken sampleEnv alice).1)])⟩
          ⟨[alice], [aliceToken]⟩ ∧
      mapGet alice "password" = .bytes [112, 119] ∧
      (createJwtToken sampleEnv alice).1 =
        "_id.username.firstName.lastName.password" ∧
      (createJwtToken sampleEnv (mapDelete alice "password")).1 =
        "_id.username.firstName.lastName" := by
  refine ⟨by decide, by decide, by decide, by decide⟩

/-- C2: a logout whose value matches no record and a logout whose store call
fails both answer with HTTP status 500; only the `errorStatus` entry of the
body tells them apart. -/
theorem logout_not_found_status :
    LogoutPostHandler sampleEnv ⟨[alice], [aliceToken]⟩
        (jsonRequest [("refreshToken", .str "nope")]) =
        .responded
          ⟨500, some (.obj [("errorMessage",
              .str "Unable to find and remove refresh token"),
            ("errorStatus", .num 404)])⟩ ⟨[alice], [aliceToken]⟩ ∧
      LogoutPostHandler downEnv ⟨[alice], [aliceToken]⟩
        (jsonRequest [("refreshToken", .str "tok")]) =
        .responded
          ⟨500, some (.obj [("errorMessage", .str "Unable to delete user"),
            ("errorStatus", .num 500)])⟩ ⟨[alice], [aliceToken]⟩ := by
  constructor <;> decide

/-- C9: an owner's update that passes the schema and supplies at least one
of the updatable keys panics on the first assignment into the nil map
`updateUser`; nothing is written to the store. -/
theorem user_put_own_record_panics (env : Env) (s : Store) (req : Request)
    (authUser : Option Doc) (hUser : GetUser req = .ok authUser)
    (hSelf : mapIdx authUser "username" = .str req.username)
    (hValid : validatePut (GetJson req) = none)
    (hSome : mapIdx (GetJson req) "firstName" ≠ .null ∨
      mapIdx (GetJson req) "lastName" ≠ .null ∨
      mapIdx (GetJson req) "username" ≠ .null) :
    UserPutHandler env s req =
      .panicked "assignment to entry in nil map" s := by
  have hu : validOptionalString 1 (mapIdx (GetJson req) "username") = none := by
    unfold validatePut at hValid
    split at hValid
    · simp at hValid
    · assumption
  have hf : validOptionalString 1 (mapIdx (GetJson req) "firstName") = none := by
    unfold validatePut at hValid
    rw [hu] at hValid
    simp only at hValid
    split at hValid
    · simp at hValid
    · assumption
  have hl : validOptionalString 1 (mapIdx (GetJson req) "lastName") = none := by
    unfold validatePut at hValid
    rw [hu, hf] at hValid
    simp only at hValid
    split at hValid
    · simp at hValid
    · assumption
  have key : ∀ v : Val, validOptionalString 1 v = none →
      v = .null ∨ ∃ x, v = .str x := by
    intro v hv
    cases v <;> simp [validOptionalString] at hv ⊢
  have hc : collectUpdates (GetJson req) ["firstName", "lastName", "username"]
      none = .error "assignment to entry in nil map" := by
    rcases key _ hf with h1 | ⟨x1, h1⟩
    · rcases key _ hl with h2 | ⟨x2, h2⟩
      · rcases key _ hu with h3 | ⟨x3, h3⟩
        · simp [h1, h2, h3] at hSome
        · simp [collectUpdates, h1, h2, h3, asString, mapAssign]
      · simp [collectUpdates, h1, h2, asString, mapAssign]
    · simp [collectUpdates, h1, asString, mapAssign]
  simp [UserPutHandler, hUser, hSelf, hValid, hc]

/-- C9, instance: `alice` sets her own first name. -/
theorem user_put_own_record_panics_witness :
    UserPutHandler sampleEnv ⟨[alice, bob], []⟩
        (userRequest "PUT" "alice" (mapDelete alice "password")
          (some [("firstName", .str "Alice")])) =
      .panicked "assignment to entry in nil map" ⟨[alice, bob], []⟩ :=
  user_put_own_record_panics sampleEnv ⟨[alice, bob], []⟩
    (userRequest "PUT" "alice" (mapDelete alice "password")
      (some [("firstName", .str "Alice")]))
    (some (mapDelete alice "password")) rfl (by decide) (by decide)
    (Or.inl (by decide))

/-- C10: a POST to `/auth/login` with no decodable body or with a JSON array
panics in `SetJson`; with an object lacking the field read first, each of
the three authentication handlers panics on its type assertion. The client
receives status 500, not 400. -/
theorem auth_bad_body_panics :
    JsonParserMiddleware (rawRequest "POST" none) ⟨[alice], [aliceToken]⟩
        (LoginPostHandler sampleEnv) =
        .panicked "interface conversion: value is not a map"
          ⟨[alice], [aliceToken]⟩ ∧
      JsonParserMiddleware (rawRequest "POST" (some (.arr [])))
        ⟨[alice], [aliceToken]⟩ (LoginPostHandler sampleEnv) =
        .panicked "interface conversion: value is not a map"
          ⟨[alice], [aliceToken]⟩ ∧
      JsonParserMiddleware (rawRequest "POST" (some (.obj [])))
        ⟨[alice], [aliceToken]⟩ (LoginPostHandler sampleEnv) =
        .panicked "interface conversion: value is not string"
          ⟨[alice], [aliceToken]⟩ ∧
      JsonParserMiddleware (rawRequest "POST" (some (.obj [])))
        ⟨[alice], [aliceToken]⟩ (RefreshPostHandler sampleEnv) =
        .panicked "interface conversion: value is not string"
          ⟨[alice], [aliceToken]⟩ ∧
      JsonParserMiddleware (rawRequest "POST" (some (.obj [])))
        ⟨[alice], [aliceToken]⟩ (LogoutPostHandler sampleEnv) =
        .panicked "interface conversion: value is not string"
          ⟨[alice], [aliceToken]⟩ ∧
      JsonParserMiddleware
        (rawRequest "POST" (some (.obj [("username", .str "alice")])))
        ⟨[alice], [aliceToken]⟩ (LoginPostHandler sampleEnv) =
        .panicked "interface conversion: value is not string"
          ⟨[alice], [aliceToken]⟩ ∧
      (JsonParserMiddleware (rawRequest "POST" (some (.obj [])))
        ⟨[alice], [aliceToken]⟩ (LoginPostHandler sampleEnv)).status = 500 := by
  refine ⟨by decide, by decide, by decide, by decide, by decide, by decide,
    by decide⟩

end Pickem
